import Mathlib

/-!
Translation backend (`backend/app.go`, `backend/main.go`).

A shallow embedding of the Go backend: the translation client
(`translateWithChatGPT`), the write path (`GetTranslationNew`), the read and
delete paths (`GetTranslation`, `DeleteTranslation`), two HTTP handlers and
`getContentType`.

Conventions of the embedding

* A Go call that can return an error or abort with a run-time panic yields a
  `Result`.
* `int` and `int64` are mathematical integers; arithmetic that can leave the
  64-bit range is wrapped with `wrapInt64` (`int` is 64 bits wide).
* The document store is explicit state (`Store`), threaded through every
  operation.  What the outside world decides (the HTTP exchange with the
  language-model API, the two JSON decoders, the clock, and whether a store
  call fails in transit) is read from an `Env`.
* Go maps are association lists with pairwise distinct keys; a `range` loop
  visits them in list order.
* A `time.Time` is its instant in nanoseconds since the Unix epoch together with
  the offset of its zone; the monotonic clock reading is left out.
* Firestore is taken as documented: a timestamp is kept to the microsecond and
  read back in UTC, a create is rejected for an existing document and for a
  document id Firestore does not allow, a delete without precondition succeeds
  on a missing document, and a `Get` of a missing document returns a not-found
  error.
-/

namespace Backend

/-! ## Go run-time values -/

/-- Outcome of a Go call: a value, a returned `error` (its message), or a
run-time panic. -/
inductive Result (α : Type) where
  | ok (v : α)
  | error (msg : String)
  | panic (msg : String)
  deriving DecidableEq, Repr

/-- Two's-complement wrap-around of a mathematical integer into `int64`. -/
def wrapInt64 (x : Int) : Int := (x + 2 ^ 63) % 2 ^ 64 - 2 ^ 63

/-- The largest `int64`. -/
def maxInt64 : Int := 2 ^ 63 - 1

/-- The smallest `int64`. -/
def minInt64 : Int := -(2 ^ 63)

/-- The text `fmt.Sprintf("%d", i)` produces. -/
def fmtD (i : Int) : String := toString i

/-! ## Go maps and keyed collections -/

/-- The assignment `m[k] = v`: replaces the value of an existing key in place, adds the
key otherwise. -/
def mapSet {V : Type} : List (String × V) → String → V → List (String × V)
  | [], k, v => [(k, v)]
  | (k', v') :: t, k, v => if k' = k then (k, v) :: t else (k', v') :: mapSet t k v

/-- The lookup `m[k]` with its presence flag. -/
def mapGet {V : Type} : List (String × V) → String → Option V
  | [], _ => none
  | (k', v') :: t, k => if k' = k then some v' else mapGet t k

/-- Removal of a key; a missing key leaves the map as it is. -/
def mapErase {V : Type} : List (String × V) → String → List (String × V)
  | [], _ => []
  | (k', v') :: t, k => if k' = k then t else (k', v') :: mapErase t k

/-- The keys of a map. -/
def mapKeys {V : Type} (m : List (String × V)) : List String := m.map Prod.fst

/-! ## `strings` and `unicode` -/

/-- The predicate `unicode.IsSpace`: the Latin-1 spaces and the code points with the
`White_Space` property. -/
def isSpace (c : Char) : Bool :=
  let n := c.toNat
  (0x09 ≤ n && n ≤ 0x0D) || n = 0x20 || n = 0x85 || n = 0xA0 || n = 0x1680 ||
  (0x2000 ≤ n && n ≤ 0x200A) || n = 0x2028 || n = 0x2029 || n = 0x202F ||
  n = 0x205F || n = 0x3000

/-- The function `strings.TrimSpace`: drops leading and trailing white space. -/
def TrimSpace (s : String) : String :=
  String.mk ((s.data.dropWhile isSpace).rdropWhile isSpace)

/-- The helper `trimRightByte` of package `strings`: drops every trailing `c`. -/
def trimRightByte (s : List Char) (c : Char) : List Char :=
  s.rdropWhile (fun x => x == c)

/-- The helper `trimLeftByte` of package `strings`: drops every leading `c`. -/
def trimLeftByte (s : List Char) (c : Char) : List Char :=
  s.dropWhile (fun x => x == c)

/-- The call `strings.Trim(s, cutset)` for a cutset of one ASCII character `c`, the
only form the backend uses: `trimLeftByte(trimRightByte(s, c), c)`. -/
def Trim (s : String) (c : Char) : String :=
  String.mk (trimLeftByte (trimRightByte s.data c) c)

/-! ## Data model (`app.go`) -/

structure OpenAIConfig where
  APIKey : String
  APIEndpoint : String
  DefaultModel : String
  DefaultMaxTokens : Int
  DefaultInstructions : String
  deriving DecidableEq, Repr

/-- The decoded model payload; `Words` is a list of Go maps from a word to its
meanings. -/
structure OpenAITranslation where
  TranslatedText : String
  Words : List (List (String × List String))
  deriving DecidableEq, Repr

structure OpenAIRequest where
  Model : String
  Prompt : String
  MaxTokens : Int
  Instructions : String
  deriving DecidableEq, Repr

/-- A `time.Time`: the instant in nanoseconds since the Unix epoch and the offset of the
zone it is expressed in, in seconds east of UTC. -/
structure Time where
  unixNano : Int
  zoneOffset : Int
  deriving DecidableEq, Repr

/-- A saved translation. -/
structure TranslationEntry where
  ID : Int
  OriginalText : String
  Translation : String
  Language : String
  CreatedAt : Time
  deriving DecidableEq, Repr

/-- A translated word with its meanings. -/
structure WordDefinition where
  TranslationID : Int
  OriginalWord : String
  Meanings : List String
  deriving DecidableEq, Repr

structure ChatContent where
  Text : String
  deriving DecidableEq, Repr

structure ChatMessage where
  Role : String
  Content : List ChatContent
  deriving DecidableEq, Repr

structure ChatGPTResponse where
  Output : List ChatMessage
  deriving DecidableEq, Repr

/-! ## The outside world -/

/-- What happens to the POST request of `translateWithChatGPT`. -/
inductive HttpExchange where
  /-- Failure of `http.NewRequest`. -/
  | requestError (msg : String)
  /-- Failure of `client.Do` (transport error or timeout). -/
  | sendError (msg : String)
  /-- Failure of `io.ReadAll` on the response body. -/
  | readError (msg : String)
  /-- A response arrived and its body was read. -/
  | response (status : Nat) (body : String)
  deriving DecidableEq, Repr

/-- The value held by field `idx` of the counter document, as `snap.Data()` shows it. -/
inductive IdxField where
  /-- The document has no field `idx`. -/
  | missing
  /-- An integer field, decoded as `int64`. -/
  | integer (v : Int)
  /-- A field of any other type. -/
  | other
  deriving DecidableEq, Repr

/-- The three Firestore collections the backend uses.  `counter` is the document
`counters/translationsCounter` (`none` when it does not exist); `translations` is keyed
by the decimal id and `words` by the word text.  Each document is held as a read
returns it. -/
structure Store where
  counter : Option IdxField
  translations : List (String × TranslationEntry)
  words : List (String × WordDefinition)
  deriving DecidableEq, Repr

/-- Everything one call reads from outside the process.  The `...Fault` fields say
whether the corresponding Firestore call fails before reaching the store (`some msg`)
or is carried out (`none`). -/
structure Env where
  /-- The exchange for a request to the given endpoint with the given `Authorization`
  header and body. -/
  httpPost : String → String → OpenAIRequest → HttpExchange
  /-- The call `json.Unmarshal(body, &chatResp)`. -/
  decodeEnvelope : String → Except String ChatGPTResponse
  /-- The call `json.Unmarshal([]byte(translation), &payload)`. -/
  decodePayload : String → Except String OpenAITranslation
  /-- The call `time.Now()`, in the local zone. -/
  now : Time
  counterGetFault : Option String
  counterSetFault : Option String
  translationSetFault : Option String
  /-- Failure of `bulkWriter.Create` to queue the write for a word. -/
  bulkCreateFault : String → Option String
  /-- Failure of the queued write for a word on its way to the store, reported on the job
  handle only. -/
  bulkWriteFault : String → Option String
  translationGetFault : Option String
  translationDeleteFault : Option String

/-! ## Translation client -/

/-- The index expression `xs[i]`: a panic when `i` is out of range. -/
def index {α : Type} (xs : List α) (i : Nat) : Result α :=
  match xs.get? i with
  | some x => .ok x
  | none =>
    .panic ("runtime error: index out of range [" ++ toString i ++ "] with length " ++
      toString xs.length)

/-- The request body `translateWithChatGPT` sends for `text`. -/
def buildRequest (cfg : OpenAIConfig) (text : String) : OpenAIRequest :=
  { Model := cfg.DefaultModel
    Prompt := text
    Instructions := cfg.DefaultInstructions
    MaxTokens := cfg.DefaultMaxTokens }

/-- Lines 235-236 of `app.go`: `strings.TrimSpace` followed by
`strings.Trim(translation, "\"")`. -/
def cleanPayload (text : String) : String :=
  Trim (TrimSpace text) '"'

/-- The method `App.translateWithChatGPT`.  The request is kept as the struct that is
marshalled (`json.Marshal` does not fail on it), and the diagnostic `fmt.Println` is left
out. -/
def translateWithChatGPT (cfg : OpenAIConfig) (env : Env) (text : String) :
    Result OpenAITranslation :=
  if cfg.APIKey = "" then
    .error "ChatGPT API key not configured"
  else
    let reqBody := buildRequest cfg text
    match env.httpPost cfg.APIEndpoint ("Bearer " ++ cfg.APIKey) reqBody with
    | .requestError e => .error ("error creating request: " ++ e)
    | .sendError e => .error ("error sending request: " ++ e)
    | .readError e => .error ("error reading response body: " ++ e)
    | .response status body =>
      if status ≠ 200 then
        .error ("API request failed with status code " ++ toString status ++ ": " ++ body)
      else
        match env.decodeEnvelope body with
        | .error e => .error ("error parsing response: " ++ e)
        | .ok chatResp =>
          if chatResp.Output.length = 0 then
            .error "no translation provided in response"
          else
            match index chatResp.Output 0 with
            | .error e => .error e
            | .panic p => .panic p
            | .ok msg0 =>
              match index msg0.Content 0 with
              | .error e => .error e
              | .panic p => .panic p
              | .ok content0 =>
                let translation := cleanPayload content0.Text
                match env.decodePayload translation with
                | .error e => .error ("error unmarshaling translation payload: " ++ e)
                | .ok payload => .ok payload

/-! ## Write path -/

/-- Lines 145-155 of `app.go`: the map `wordsToInsert`, filled by the two nested `range`
loops over `translation.Words`. -/
def buildWordsToInsert (id : Int) (words : List (List (String × List String))) :
    List (String × WordDefinition) :=
  words.foldl
    (fun acc wordEntry =>
      wordEntry.foldl
        (fun acc p =>
          mapSet acc p.1 { TranslationID := id, OriginalWord := p.1, Meanings := p.2 })
        acc)
    []

/-- Lines 157-163 of `app.go`: the loop that queues one create per word.  Yields the
writes queued so far and the error that stopped the loop, if any. -/
def queueCreates (env : Env) :
    List (String × WordDefinition) → List (String × WordDefinition) × Option String
  | [] => ([], none)
  | (word, wordDef) :: rest =>
    match env.bulkCreateFault word with
    | some e => ([], some e)
    | none => ((word, wordDef) :: (queueCreates env rest).1, (queueCreates env rest).2)

/-- The document ids Firestore allows: not empty, not `.` or `..`, without `/`, not of
the form `__.*__`, and at most 1500 bytes long. -/
def validDocID (id : String) : Bool :=
  id.data ≠ [] && id.data ≠ ['.'] && id.data ≠ ['.', '.'] && !id.data.contains '/' &&
  !(4 ≤ id.data.length && id.data.take 2 = ['_', '_'] &&
    id.data.reverse.take 2 = ['_', '_']) &&
  (id.data.flatMap String.utf8EncodeChar).length ≤ 1500

/-- The timestamp Firestore holds for a `time.Time`: the instant rounded down to the
microsecond, read back in UTC. -/
def storedTime (t : Time) : Time :=
  { unixNano := t.unixNano - t.unixNano % 1000, zoneOffset := 0 }

/-- The document that `Set(ctx, entry)` leaves in the translations collection, as
`DataTo` decodes it: the fields of `entry`, with the timestamp as Firestore holds it. -/
def storedEntry (entry : TranslationEntry) : TranslationEntry :=
  { entry with CreatedAt := storedTime entry.CreatedAt }

/-- One queued create of document `k` in the words collection.  Nothing is written when
the id is not allowed, when the write fails on its way (`fault`), or when the document
exists (a create does not replace a document); the document is written otherwise. -/
def fsCreate (fault : Option String) (coll : List (String × WordDefinition)) (k : String)
    (v : WordDefinition) : List (String × WordDefinition) :=
  if validDocID k = false then coll
  else
    match fault with
    | some _ => coll
    | none =>
      match mapGet coll k with
      | some _ => coll
      | none => mapSet coll k v

/-- The queued creates being sent by `bulkWriter.End()`.  The outcome of each one is
reported on its job handle, which the backend never reads. -/
def flushCreates (env : Env) (words : List (String × WordDefinition))
    (queued : List (String × WordDefinition)) : List (String × WordDefinition) :=
  queued.foldl (fun ws p => fsCreate (env.bulkWriteFault p.1) ws p.1 p.2) words

/-- The error text of a Firestore `Get` on a document that does not exist. -/
def notFoundMsg (path : String) : String :=
  "rpc error: code = NotFound desc = \"" ++ path ++ "\" not found"

/-- The method `App.GetTranslationNew`.

`docRef.Get` on the counter returns a nil snapshot with a transport error, and
`snap.Data()` then dereferences it; on a missing document it returns a snapshot without
data together with a not-found error.  The result of `docRef.Set` on the counter is
discarded by the code.  Writes queued on the bulk writer before a failed `Create` are
taken to be sent. -/
def GetTranslationNew (cfg : OpenAIConfig) (env : Env) (s : Store) (text : String) :
    Result TranslationEntry × Store :=
  match translateWithChatGPT cfg env text with
  | .error e => (.error e, s)
  | .panic p => (.panic p, s)
  | .ok translation =>
    match env.counterGetFault with
    | some _ => (.panic "runtime error: invalid memory address or nil pointer dereference", s)
    | none =>
      match s.counter with
      | none =>
        (.error ("failed to get translation counter from Firestore: " ++
          notFoundMsg "counters/translationsCounter"), s)
      | some .missing =>
        (.error "failed to get translation counter from Firestore: %!w(<nil>)", s)
      | some .other =>
        (.error "failed to get translation counter from Firestore: %!w(<nil>)", s)
      | some (.integer idx) =>
        let s1 : Store :=
          match env.counterSetFault with
          | some _ => s
          | none => { s with counter := some (.integer (wrapInt64 (idx + 1))) }
        let entry : TranslationEntry :=
          { ID := wrapInt64 (idx + 1)
            OriginalText := text
            Translation := translation.TranslatedText
            Language := "de"
            CreatedAt := env.now }
        match env.translationSetFault with
        | some e => (.error ("failed to save translation to Firestore: " ++ e), s1)
        | none =>
          let s2 : Store :=
            { s1 with
              translations := mapSet s1.translations (fmtD entry.ID) (storedEntry entry) }
          let wordsToInsert := buildWordsToInsert entry.ID translation.Words
          match queueCreates env wordsToInsert with
          | (queued, some e) =>
            (.error ("failed to bulk write word definitions: " ++ e),
              { s2 with words := flushCreates env s2.words queued })
          | (queued, none) =>
            (.ok entry, { s2 with words := flushCreates env s2.words queued })

/-! ## Read and delete paths -/

/-- The method `App.DeleteTranslation`.  A Firestore `Delete` without precondition
succeeds whether or not the document exists. -/
def DeleteTranslation (env : Env) (s : Store) (id : Int) : Result Unit × Store :=
  match env.translationDeleteFault with
  | some e => (.error ("failed to delete translation from Firestore: " ++ e), s)
  | none => (.ok (), { s with translations := mapErase s.translations (fmtD id) })

/-- A Firestore `Get` on a document of the translations collection: the snapshot data
(if the document exists) and the returned error. -/
def fsGetTranslation (env : Env) (s : Store) (key : String) :
    Option TranslationEntry × Option String :=
  match env.translationGetFault with
  | some e => (none, some e)
  | none =>
    match mapGet s.translations key with
    | none => (none, some (notFoundMsg ("translations/" ++ key)))
    | some e => (some e, none)

/-- The method `App.GetTranslation`.  Documents of the collection are those written by
`GetTranslationNew`, on which `DataTo` does not fail; it yields the document as the store
holds it. -/
def GetTranslation (env : Env) (s : Store) (id : Int) : Result TranslationEntry :=
  match fsGetTranslation env s (fmtD id) with
  | (_, some e) => .error ("failed to get translation from Firestore: " ++ e)
  | (none, none) => .error ("translation with ID " ++ fmtD id ++ " not found")
  | (some entry, none) => .ok entry

/-! ## HTTP handlers (`main.go`) -/

/-- The two kinds of `strconv.NumError`. -/
inductive NumError where
  | invalid
  | range
  deriving DecidableEq, Repr

/-- The largest `uint64`. -/
def maxUint64 : Nat := 2 ^ 64 - 1

/-- The digit loop of `strconv.ParseUint(s, 10, 64)`. -/
def parseUintDigits : List Char → Nat → Nat × Option NumError
  | [], n => (n, none)
  | c :: cs, n =>
    if '0' ≤ c ∧ c ≤ '9' then
      if n ≥ maxUint64 / 10 + 1 then (maxUint64, some .range)
      else if n * 10 + (c.toNat - 48) > maxUint64 then (maxUint64, some .range)
      else parseUintDigits cs (n * 10 + (c.toNat - 48))
    else (0, some .invalid)

/-- The function `strconv.Atoi` on a 64-bit platform: the value and the error.  Its fast
path for short strings computes the same results as `ParseInt(s, 10, 0)`, which is what
is transcribed here. -/
def Atoi (s : String) : Int × Option NumError :=
  match s.data with
  | [] => (0, some .invalid)
  | c :: cs =>
    let neg : Bool := c = '-'
    let digits := if c = '+' ∨ c = '-' then cs else c :: cs
    if digits = [] then (0, some .invalid)
    else
      match parseUintDigits digits 0 with
      | (_, some .invalid) => (0, some .invalid)
      | (un, _) =>
        if !neg && un ≥ 2 ^ 63 then (maxInt64, some .range)
        else if neg && un > 2 ^ 63 then (minInt64, some .range)
        else (if neg then -(un : Int) else (un : Int), none)

/-- The JSON body of a response. -/
inductive Body where
  | empty
  | error (msg : String)
  | message (msg : String)
  | entry (e : TranslationEntry)
  deriving DecidableEq, Repr

structure Response where
  status : Nat
  body : Body
  deriving DecidableEq, Repr

/-- The handler of `GET /api/translations/:id`.  The error of `strconv.Atoi` is
overwritten by the next assignment to `err` before it is looked at. -/
def getTranslationHandler (env : Env) (s : Store) (id : String) : Response :=
  let iid := (Atoi id).1
  match GetTranslation env s iid with
  | .error e => { status := 500, body := .error e }
  | .panic _ => { status := 500, body := .empty }
  | .ok translation => { status := 200, body := .entry translation }

/-- The handler of `DELETE /api/translations/:id`. -/
def deleteTranslationHandler (env : Env) (s : Store) (id : String) : Response × Store :=
  match Atoi id with
  | (_, some _) => ({ status := 400, body := .error "Invalid ID" }, s)
  | (iid, none) =>
    match DeleteTranslation env s iid with
    | (.error e, s') => ({ status := 500, body := .error e }, s')
    | (.panic _, s') => ({ status := 500, body := .empty }, s')
    | (.ok _, s') => ({ status := 200, body := .message "Translation deleted" }, s')

/-! ## Static files (`main.go`) -/

/-- The bytes of a Go string. -/
def goBytes (s : String) : List UInt8 := s.data.flatMap String.utf8EncodeChar

/-- The slice expression `path[len(path)-k:]`: a panic when `k` exceeds the length. -/
def suffixFrom (path : List UInt8) (k : Nat) : Result (List UInt8) :=
  if path.length < k then
    .panic ("runtime error: slice bounds out of range [-" ++ toString (k - path.length) ++ ":]")
  else .ok (path.drop (path.length - k))

/-- One comparison `path[len(path)-k:] == ext` of the `switch`: `hit` when it holds,
`next` when it does not. -/
def caseSuffix (path : List UInt8) (k : Nat) (ext : String) (hit next : Result String) :
    Result String :=
  match suffixFrom path k with
  | .ok suffix => if suffix = goBytes ext then hit else next
  | .error e => .error e
  | .panic p => .panic p

/-- The function `getContentType`; the comparisons are tried in source order. -/
def getContentType (path : String) : Result String :=
  let p := goBytes path
  caseSuffix p 3 ".js" (.ok "application/javascript") <|
  caseSuffix p 4 ".css" (.ok "text/css") <|
  caseSuffix p 5 ".html" (.ok "text/html") <|
  caseSuffix p 4 ".png" (.ok "image/png") <|
  caseSuffix p 4 ".jpg" (.ok "image/jpeg") <|
  caseSuffix p 5 ".jpeg" (.ok "image/jpeg") <|
  caseSuffix p 4 ".svg" (.ok "image/svg+xml") <|
  caseSuffix p 5 ".woff" (.ok "font/woff") <|
  caseSuffix p 6 ".woff2" (.ok "font/woff") <|
  .ok "text/plain"

/-! ## Specification-side notions -/

/-- The meanings a word has at its last occurrence in a list of word maps: the entry of
the last map that has the word as a key. -/
def lastOccurrence : List (List (String × List String)) → String → Option (List String)
  | [], _ => none
  | m :: rest, w =>
    match lastOccurrence rest w with
    | some ms => some ms
    | none => mapGet m w

/-- Removal of one layer of enclosing quotes, as the specification words it: at most
one `"` from the front and at most one from the back. -/
def stripOneQuoteLayer (s : String) : String :=
  let front := match s.data with
    | '"' :: t => t
    | l => l
  String.mk (if front.getLast? = some '"' then front.dropLast else front)

/-! ## Sample configurations and environments -/

/-- The configuration `NewApp` installs, with the API key left as a parameter. -/
def newAppConfig (apiKey : String) : OpenAIConfig :=
  { APIKey := apiKey
    APIEndpoint := "https://api.openai.com/v1/responses"
    DefaultModel := "gpt-4.1"
    DefaultMaxTokens := 3000
    DefaultInstructions :=
      "\"You will output the following json structure: \x7b\\\"translation\\\": \\\"<translated text>\\\", \\\"words\\\": [\x7b\\\"<word>\\\": <word translation>\x7d]. <translated text> is the translation of the from German to English. Try to follow idioms instead of dumb translating. \\\"words\\\" contains a pair: german word - 3 most common translations in english. Every word from original text should be in the list. Please do not include any more additional information in the output.\"" }

/-- A clock reading in a zone two hours east of UTC. -/
def clockA : Time := { unixNano := 1700000000123456789, zoneOffset := 7200 }

/-- A later clock reading in the same zone. -/
def clockB : Time := { unixNano := 1700000060987654321, zoneOffset := 7200 }

/-- An environment in which no Firestore call fails in transit. -/
def reliableEnv (exchange : HttpExchange)
    (decodeEnvelope : String → Except String ChatGPTResponse)
    (decodePayload : String → Except String OpenAITranslation) (now : Time) : Env :=
  { httpPost := fun _ _ _ => exchange
    decodeEnvelope := decodeEnvelope
    decodePayload := decodePayload
    now := now
    counterGetFault := none
    counterSetFault := none
    translationSetFault := none
    bulkCreateFault := fun _ => none
    bulkWriteFault := fun _ => none
    translationGetFault := none
    translationDeleteFault := none }

/-- The API answers 200 with one message whose single content block holds `reply`; the
payload decoder reports the text it is given as the translated text. -/
def echoEnv (reply : String) : Env :=
  reliableEnv (.response 200 reply)
    (fun body => .ok { Output := [{ Role := "assistant", Content := [{ Text := body }] }] })
    (fun t => .ok { TranslatedText := t, Words := [] }) clockA

/-- The API answers 200 with one message that has no content block. -/
def emptyContentEnv : Env :=
  reliableEnv (.response 200 "\x7b\"output\":[\x7b\"role\":\"assistant\",\"content\":[]\x7d]\x7d")
    (fun _ => .ok { Output := [{ Role := "assistant", Content := [] }] })
    (fun t => .ok { TranslatedText := t, Words := [] }) clockA

/-- The API answers with the given status and body. -/
def statusEnv (status : Nat) (body : String) : Env :=
  reliableEnv (.response status body) (fun _ => .error "unexpected end of JSON input")
    (fun _ => .error "unexpected end of JSON input") clockA

/-- An environment in which the `Get` on a translation fails with `msg`. -/
def readFaultEnv (msg : String) : Env :=
  { statusEnv 200 "" with translationGetFault := some msg }

/-- The API answers 200 and the reply decodes to the given translated text and word
maps; the clock reads `now`. -/
def wordsEnv (translated : String) (words : List (List (String × List String)))
    (now : Time) : Env :=
  reliableEnv (.response 200 "")
    (fun _ => .ok { Output := [{ Role := "assistant", Content := [{ Text := "" }] }] })
    (fun _ => .ok { TranslatedText := translated, Words := words }) now

/-- A store holding only the counter, with the given value. -/
def counterStore (idx : Int) : Store :=
  { counter := some (.integer idx), translations := [], words := [] }

/-- The document of an earlier translation, with id 41. -/
def earlierEntry : TranslationEntry :=
  { ID := 41, OriginalText := "Guten Tag", Translation := "Good day", Language := "de",
    CreatedAt := { unixNano := 1699990000000001000, zoneOffset := 0 } }

/-- A store with counter 41, one translation and one word. -/
def sampleStore : Store :=
  { counter := some (.integer 41)
    translations := [("41", earlierEntry)]
    words := [("Tag", { TranslationID := 41, OriginalWord := "Tag", Meanings := ["day"] })] }

/-- The entry a translation of "Hallo" at `clockA` returns on `sampleStore`. -/
def sampleEntry : TranslationEntry :=
  { ID := 42, OriginalText := "Hallo", Translation := "Hello", Language := "de",
    CreatedAt := clockA }

/-- The document Firestore holds for `sampleEntry`. -/
def sampleEntryStored : TranslationEntry :=
  { ID := 42, OriginalText := "Hallo", Translation := "Hello", Language := "de",
    CreatedAt := { unixNano := 1700000000123456000, zoneOffset := 0 } }

/-- The store `sampleStore` after that translation. -/
def sampleStoreAfter : Store :=
  { counter := some (.integer 42)
    translations := [("41", earlierEntry), ("42", sampleEntryStored)]
    words :=
      [("Tag", { TranslationID := 41, OriginalWord := "Tag", Meanings := ["day"] }),
       ("Hallo", { TranslationID := 42, OriginalWord := "Hallo", Meanings := ["hello"] })] }

/-- A document with id 0. -/
def zeroEntry : TranslationEntry :=
  { ID := 0, OriginalText := "Null", Translation := "Zero", Language := "de",
    CreatedAt := { unixNano := 1699990000000002000, zoneOffset := 0 } }

/-- A store whose translations collection has a document with key `0`. -/
def zeroStore : Store :=
  { counter := some (.integer 0), translations := [("0", zeroEntry)], words := [] }

/-- The entry a first call, translating "Hallo" at `clockA`, returns on
`counterStore 0`. -/
def firstEntry : TranslationEntry :=
  { ID := 1, OriginalText := "Hallo", Translation := "Hello", Language := "de",
    CreatedAt := clockA }

/-- The entry a second call, translating "Hallo Welt" at `clockB`, returns after it. -/
def secondEntry : TranslationEntry :=
  { ID := 2, OriginalText := "Hallo Welt", Translation := "Hello world", Language := "de",
    CreatedAt := clockB }

/-- The word maps the model returns for the first call. -/
def firstWords : List (List (String × List String)) :=
  [[("Hallo", ["hello", "hi", "hey"])]]

/-- The word maps the model returns for the second call. -/
def secondWords : List (List (String × List String)) :=
  [[("Hallo", ["hallo there"])], [("Welt", ["world"])]]

/-- The store `counterStore 0` after the first call. -/
def afterFirstCall : Store :=
  { counter := some (.integer 1)
    translations :=
      [("1", { ID := 1, OriginalText := "Hallo", Translation := "Hello", Language := "de",
               CreatedAt := { unixNano := 1700000000123456000, zoneOffset := 0 } })]
    words :=
      [("Hallo", { TranslationID := 1, OriginalWord := "Hallo",
                   Meanings := ["hello", "hi", "hey"] })] }

/-- The store `afterFirstCall` after the second call. -/
def afterSecondCall : Store :=
  { counter := some (.integer 2)
    translations :=
      [("1", { ID := 1, OriginalText := "Hallo", Translation := "Hello", Language := "de",
               CreatedAt := { unixNano := 1700000000123456000, zoneOffset := 0 } }),
       ("2", { ID := 2, OriginalText := "Hallo Welt", Translation := "Hello world",
               Language := "de",
               CreatedAt := { unixNano := 1700000060987654000, zoneOffset := 0 } })]
    words :=
      [("Hallo", { TranslationID := 1, OriginalWord := "Hallo",
                   Meanings := ["hello", "hi", "hey"] }),
       ("Welt", { TranslationID := 2, OriginalWord := "Welt", Meanings := ["world"] })] }

/-! ## Go maps: basic facts -/

theorem mapGet_mapSet {V : Type} (m : List (String × V)) (k k' : String) (v : V) :
    mapGet (mapSet m k v) k' = if k = k' then some v else mapGet m k' := by
  induction m with
  | nil => simp [mapSet, mapGet]
  | cons p t ih =>
    obtain ⟨a, b⟩ := p
    by_cases h : a = k
    · subst h
      by_cases h2 : a = k' <;> simp [mapSet, mapGet, h2]
    · by_cases h2 : a = k'
      · subst h2
        have h3 : ¬ k = a := fun e => h e.symm
        simp [mapSet, mapGet, h, h3]
      · simp [mapSet, mapGet, h, h2, ih]

theorem mapGet_eq_none_iff {V : Type} (m : List (String × V)) (k : String) :
    mapGet m k = none ↔ k ∉ mapKeys m := by
  induction m with
  | nil => simp [mapGet, mapKeys]
  | cons p t ih =>
    obtain ⟨a, b⟩ := p
    by_cases h : a = k
    · simp [mapGet, mapKeys, h]
    · have h' : ¬ k = a := fun e => h e.symm
      simpa [mapGet, mapKeys, h, h'] using ih

theorem mem_of_mapGet {V : Type} (m : List (String × V)) (k : String) (v : V)
    (h : mapGet m k = some v) : (k, v) ∈ m := by
  induction m with
  | nil => simp [mapGet] at h
  | cons p t ih =>
    obtain ⟨a, b⟩ := p
    by_cases hk : a = k
    · subst hk
      simp [mapGet] at h
      simp [h]
    · simp [mapGet, hk] at h
      exact List.mem_cons_of_mem _ (ih h)

theorem mem_mapKeys_of_mem {V : Type} (m : List (String × V)) (k : String) (v : V)
    (h : (k, v) ∈ m) : k ∈ mapKeys m :=
  List.mem_map.mpr ⟨(k, v), h, rfl⟩

theorem mapGet_of_mem {V : Type} (m : List (String × V)) (k : String) (v : V)
    (hnd : (mapKeys m).Nodup) (h : (k, v) ∈ m) : mapGet m k = some v := by
  induction m with
  | nil => simp at h
  | cons p t ih =>
    obtain ⟨a, b⟩ := p
    have hnd' : a ∉ mapKeys t ∧ (mapKeys t).Nodup := by
      simpa [mapKeys] using hnd
    rcases List.mem_cons.mp h with heq | hmem
    · cases heq
      simp [mapGet]
    · have hk : k ∈ mapKeys t := mem_mapKeys_of_mem t k v hmem
      have hne : ¬ a = k := fun e => hnd'.1 (e ▸ hk)
      simp [mapGet, hne, ih hnd'.2 hmem]

theorem mem_mapKeys_mapSet {V : Type} (m : List (String × V)) (k k' : String) (v : V) :
    k' ∈ mapKeys (mapSet m k v) ↔ k' = k ∨ k' ∈ mapKeys m := by
  have h1 := mapGet_eq_none_iff (mapSet m k v) k'
  have h2 := mapGet_eq_none_iff m k'
  rw [mapGet_mapSet] at h1
  by_cases hk : k = k'
  · subst hk
    simp at h1
    simp [h1]
  · have hk' : ¬ k' = k := fun e => hk e.symm
    simp only [hk, if_false] at h1
    rw [h2] at h1
    simp only [hk', false_or]
    exact (not_iff_not.mp h1).symm

theorem nodup_mapKeys_mapSet {V : Type} (m : List (String × V)) (k : String) (v : V)
    (hnd : (mapKeys m).Nodup) : (mapKeys (mapSet m k v)).Nodup := by
  induction m with
  | nil => simp [mapSet, mapKeys]
  | cons p t ih =>
    obtain ⟨a, b⟩ := p
    have hnd' : a ∉ mapKeys t ∧ (mapKeys t).Nodup := by
      simpa [mapKeys] using hnd
    by_cases h : a = k
    · subst h
      simpa [mapSet, mapKeys] using hnd
    · have hmem : a ∉ mapKeys (mapSet t k v) := by
        rw [mem_mapKeys_mapSet]
        exact fun hc => hc.elim h hnd'.1
      have := ih hnd'.2
      simp only [mapSet, h, if_false, mapKeys, List.map_cons, List.nodup_cons]
      exact ⟨hmem, this⟩

theorem mapErase_of_not_mem {V : Type} (m : List (String × V)) (k : String)
    (h : mapGet m k = none) : mapErase m k = m := by
  induction m with
  | nil => rfl
  | cons p t ih =>
    obtain ⟨a, b⟩ := p
    by_cases hk : a = k
    · simp [mapGet, hk] at h
    · simp [mapGet, hk] at h
      simp [mapErase, hk, ih h]

/-! ## The batch of word definitions -/

/-- The inner `range` loop of lines 148-154, started from the map `acc`. -/
theorem mapGet_innerLoop (id : Int) (m : List (String × List String))
    (hnd : (mapKeys m).Nodup) (acc : List (String × WordDefinition)) (w : String) :
    mapGet (m.foldl (fun acc p =>
        mapSet acc p.1 { TranslationID := id, OriginalWord := p.1, Meanings := p.2 }) acc) w =
      match mapGet m w with
      | some ms => some { TranslationID := id, OriginalWord := w, Meanings := ms }
      | none => mapGet acc w := by
  induction m generalizing acc with
  | nil => simp [mapGet]
  | cons p t ih =>
    obtain ⟨a, b⟩ := p
    have hnd' : a ∉ mapKeys t ∧ (mapKeys t).Nodup := by
      simpa [mapKeys] using hnd
    rw [List.foldl_cons, ih hnd'.2]
    by_cases h : a = w
    · subst h
      have hn : mapGet t a = none := (mapGet_eq_none_iff t a).mpr hnd'.1
      simp [mapGet, hn, mapGet_mapSet]
    · cases hg : mapGet t w <;> simp [mapGet, h, mapGet_mapSet, hg]

theorem nodup_innerLoop (id : Int) (m : List (String × List String))
    (acc : List (String × WordDefinition)) (hacc : (mapKeys acc).Nodup) :
    (mapKeys (m.foldl (fun acc p =>
        mapSet acc p.1 { TranslationID := id, OriginalWord := p.1, Meanings := p.2 })
      acc)).Nodup := by
  induction m generalizing acc with
  | nil => simpa using hacc
  | cons p t ih =>
    rw [List.foldl_cons]
    exact ih _ (nodup_mapKeys_mapSet acc _ _ hacc)

/-- The outer loop of lines 147-155, started from the map `acc`. -/
theorem mapGet_outerLoop (id : Int) (words : List (List (String × List String)))
    (hwf : ∀ m ∈ words, (mapKeys m).Nodup) (acc : List (String × WordDefinition))
    (w : String) :
    mapGet (words.foldl (fun acc wordEntry =>
        wordEntry.foldl (fun acc p =>
          mapSet acc p.1 { TranslationID := id, OriginalWord := p.1, Meanings := p.2 })
        acc) acc) w =
      match lastOccurrence words w with
      | some ms => some { TranslationID := id, OriginalWord := w, Meanings := ms }
      | none => mapGet acc w := by
  induction words generalizing acc with
  | nil => simp [lastOccurrence]
  | cons m rest ih =>
    rw [List.foldl_cons, ih (fun m' hm' => hwf m' (List.mem_cons_of_mem _ hm'))]
    cases hl : lastOccurrence rest w with
    | some ms => simp [lastOccurrence, hl]
    | none =>
      simp only [lastOccurrence, hl]
      exact mapGet_innerLoop id m (hwf m (List.mem_cons_self _ _)) acc w

theorem nodup_outerLoop (id : Int) (words : List (List (String × List String)))
    (acc : List (String × WordDefinition)) (hacc : (mapKeys acc).Nodup) :
    (mapKeys (words.foldl (fun acc wordEntry =>
        wordEntry.foldl (fun acc p =>
          mapSet acc p.1 { TranslationID := id, OriginalWord := p.1, Meanings := p.2 })
        acc) acc)).Nodup := by
  induction words generalizing acc with
  | nil => simpa using hacc
  | cons m rest ih =>
    rw [List.foldl_cons]
    exact ih _ (nodup_innerLoop id m acc hacc)

theorem mapGet_buildWordsToInsert (id : Int) (words : List (List (String × List String)))
    (hwf : ∀ m ∈ words, (mapKeys m).Nodup) (w : String) :
    mapGet (buildWordsToInsert id words) w =
      (lastOccurrence words w).map
        (fun ms => { TranslationID := id, OriginalWord := w, Meanings := ms }) := by
  unfold buildWordsToInsert
  rw [mapGet_outerLoop id words hwf [] w]
  cases lastOccurrence words w <;> simp [mapGet]

theorem nodup_buildWordsToInsert (id : Int) (words : List (List (String × List String))) :
    (mapKeys (buildWordsToInsert id words)).Nodup :=
  nodup_outerLoop id words [] (by simp [mapKeys])

theorem lastOccurrence_eq_some (words : List (List (String × List String))) (w : String)
    (ms : List String) (h : lastOccurrence words w = some ms) :
    ∃ pre m post, words = pre ++ m :: post ∧ mapGet m w = some ms ∧
      ∀ m' ∈ post, mapGet m' w = none := by
  induction words with
  | nil => simp [lastOccurrence] at h
  | cons m rest ih =>
    cases hl : lastOccurrence rest w with
    | some ms' =>
      simp only [lastOccurrence, hl, Option.some.injEq] at h
      subst h
      obtain ⟨pre, m0, post, hw, hg, hp⟩ := ih hl
      exact ⟨m :: pre, m0, post, by simp [hw], hg, hp⟩
    | none =>
      simp only [lastOccurrence, hl] at h
      refine ⟨[], m, rest, rfl, h, ?_⟩
      clear h ih
      induction rest with
      | nil => simp
      | cons r rs ih2 =>
        intro m' hm'
        cases hl2 : lastOccurrence rs w with
        | some x => simp [lastOccurrence, hl2] at hl
        | none =>
          simp only [lastOccurrence, hl2] at hl
          rcases List.mem_cons.mp hm' with e | e
          · exact e ▸ hl
          · exact ih2 hl2 m' e

theorem lastOccurrence_eq_none_iff (words : List (List (String × List String)))
    (w : String) : lastOccurrence words w = none ↔ ∀ m ∈ words, mapGet m w = none := by
  induction words with
  | nil => simp [lastOccurrence]
  | cons m rest ih =>
    cases hl : lastOccurrence rest w with
    | some x =>
      have : ¬ ∀ m ∈ rest, mapGet m w = none := fun hc => by
        rw [ih.mpr hc] at hl
        cases hl
      simp only [lastOccurrence, hl, List.mem_cons, forall_eq_or_imp, false_iff]
      constructor
      · intro hc
        cases hc
      · intro hc
        exact absurd hc.2 this
    | none =>
      simp only [lastOccurrence, hl, List.mem_cons, forall_eq_or_imp]
      exact ⟨fun h => ⟨h, ih.mp hl⟩, fun h => h.1⟩

/-- Claim C2. The map `wordsToInsert` built by `GetTranslationNew` for the entry `id` has
one record per distinct word of the word maps (its keys are pairwise distinct and are
exactly the words that occur); every record carries `id` as translation id and its key
as original word, and its meanings are those the word has in the last list element that
contains it. -/
theorem wordsToInsert_last_occurrence_wins (id : Int)
    (words : List (List (String × List String)))
    (hwf : ∀ m ∈ words, (mapKeys m).Nodup) :
    (mapKeys (buildWordsToInsert id words)).Nodup ∧
    (∀ w, w ∈ mapKeys (buildWordsToInsert id words) ↔ ∃ m ∈ words, w ∈ mapKeys m) ∧
    (∀ w d, (w, d) ∈ buildWordsToInsert id words →
      d.TranslationID = id ∧ d.OriginalWord = w ∧
      ∃ pre m post, words = pre ++ m :: post ∧ (w, d.Meanings) ∈ m ∧
        ∀ m' ∈ post, w ∉ mapKeys m') := by
  refine ⟨nodup_buildWordsToInsert id words, ?_, ?_⟩
  · intro w
    have h1 := mapGet_eq_none_iff (buildWordsToInsert id words) w
    rw [mapGet_buildWordsToInsert id words hwf w, Option.map_eq_none',
      lastOccurrence_eq_none_iff] at h1
    constructor
    · intro hw
      by_contra hc
      apply (h1.mp ?_) hw
      intro m hm
      rw [mapGet_eq_none_iff]
      exact fun hmem => hc ⟨m, hm, hmem⟩
    · rintro ⟨m, hm, hmem⟩
      by_contra hc
      exact (mapGet_eq_none_iff m w).mp (h1.mpr hc m hm) hmem
  · intro w d hmem
    have hg := mapGet_of_mem _ w d (nodup_buildWordsToInsert id words) hmem
    rw [mapGet_buildWordsToInsert id words hwf w] at hg
    cases hl : lastOccurrence words w with
    | none => simp [hl] at hg
    | some ms =>
      simp only [hl, Option.map_some', Option.some.injEq] at hg
      subst hg
      obtain ⟨pre, m, post, hw, hgm, hp⟩ := lastOccurrence_eq_some words w ms hl
      exact ⟨rfl, rfl, pre, m, post, hw, mem_of_mapGet m w ms hgm,
        fun m' hm' => (mapGet_eq_none_iff m' w).mp (hp m' hm')⟩

theorem wordsToInsert_last_occurrence_wins_witness :
    (∀ m ∈ [[("Hallo", ["hello"]), ("Welt", ["world"])], [("Hallo", ["hi", "hey"])]],
      (mapKeys m).Nodup) ∧
    buildWordsToInsert 7 [[("Hallo", ["hello"]), ("Welt", ["world"])], [("Hallo", ["hi", "hey"])]] =
      [("Hallo", { TranslationID := 7, OriginalWord := "Hallo", Meanings := ["hi", "hey"] }),
       ("Welt", { TranslationID := 7, OriginalWord := "Welt", Meanings := ["world"] })] ∧
    ((mapKeys (buildWordsToInsert 7
        [[("Hallo", ["hello"]), ("Welt", ["world"])], [("Hallo", ["hi", "hey"])]])).Nodup ∧
    (∀ w, w ∈ mapKeys (buildWordsToInsert 7
        [[("Hallo", ["hello"]), ("Welt", ["world"])], [("Hallo", ["hi", "hey"])]]) ↔
      ∃ m ∈ [[("Hallo", ["hello"]), ("Welt", ["world"])], [("Hallo", ["hi", "hey"])]],
        w ∈ mapKeys m) ∧
    (∀ w d, (w, d) ∈ buildWordsToInsert 7
        [[("Hallo", ["hello"]), ("Welt", ["world"])], [("Hallo", ["hi", "hey"])]] →
      d.TranslationID = 7 ∧ d.OriginalWord = w ∧
      ∃ pre m post,
        [[("Hallo", ["hello"]), ("Welt", ["world"])], [("Hallo", ["hi", "hey"])]] =
          pre ++ m :: post ∧ (w, d.Meanings) ∈ m ∧ ∀ m' ∈ post, w ∉ mapKeys m')) :=
  ⟨by decide, by decide,
    wordsToInsert_last_occurrence_wins 7
      [[("Hallo", ["hello"]), ("Welt", ["world"])], [("Hallo", ["hi", "hey"])]] (by decide)⟩

/-! ## Trimming -/

theorem dropWhile_decomp {α : Type} (p : α → Bool) (l : List α) :
    ∃ pre, l = pre ++ l.dropWhile p ∧ ∀ c ∈ pre, p c = true :=
  ⟨l.takeWhile p, (List.takeWhile_append_dropWhile p l).symm,
    fun _ hc => List.mem_takeWhile_imp hc⟩

theorem rdropWhile_decomp {α : Type} (p : α → Bool) (l : List α) :
    ∃ post, l = l.rdropWhile p ++ post ∧ ∀ c ∈ post, p c = true := by
  obtain ⟨pre, h1, h2⟩ := dropWhile_decomp p l.reverse
  refine ⟨pre.reverse, ?_, fun c hc => h2 c (List.mem_reverse.mp hc)⟩
  have := congrArg List.reverse h1
  simpa [List.rdropWhile] using this

theorem head?_dropWhile_false {α : Type} (p : α → Bool) (l : List α) (c : α)
    (h : (l.dropWhile p).head? = some c) : p c = false := by
  have := List.head?_dropWhile_not p l
  rw [h] at this
  exact this

theorem getLast?_rdropWhile_false {α : Type} (p : α → Bool) (l : List α) (c : α)
    (h : (l.rdropWhile p).getLast? = some c) : p c = false := by
  apply head?_dropWhile_false p l.reverse c
  simpa [List.rdropWhile] using h

theorem getLast?_dropWhile_of_some {α : Type} (p : α → Bool) (l : List α) (c : α)
    (h : (l.dropWhile p).getLast? = some c) : l.getLast? = some c := by
  obtain ⟨pre, h1, _⟩ := dropWhile_decomp p l
  have hne : l.dropWhile p ≠ [] := by
    intro e
    rw [e] at h
    cases h
  rw [h1, List.getLast?_append_of_ne_nil _ hne]
  exact h

theorem head?_rdropWhile_of_some {α : Type} (p : α → Bool) (l : List α) (c : α)
    (h : (l.rdropWhile p).head? = some c) : l.head? = some c := by
  obtain ⟨post, h1, _⟩ := rdropWhile_decomp p l
  rw [h1]
  cases hx : l.rdropWhile p with
  | nil => rw [hx] at h; cases h
  | cons a t => rw [hx] at h; simpa using h

/-- What `strings.TrimSpace` returns: the text without a run of white space at each of
its ends, and with no white space left at either of them. -/
theorem TrimSpace_spec (text : String) :
    (∃ pre post, text.data = pre ++ (TrimSpace text).data ++ post ∧
      (∀ x ∈ pre, isSpace x = true) ∧ ∀ x ∈ post, isSpace x = true) ∧
    (∀ x, (TrimSpace text).data.head? = some x → isSpace x = false) ∧
    (∀ x, (TrimSpace text).data.getLast? = some x → isSpace x = false) := by
  obtain ⟨pre, h1, hpre⟩ := dropWhile_decomp isSpace text.data
  obtain ⟨post, h2, hpost⟩ := rdropWhile_decomp isSpace (text.data.dropWhile isSpace)
  refine ⟨⟨pre, post, ?_, hpre, hpost⟩, ?_, ?_⟩
  · show text.data = pre ++ (text.data.dropWhile isSpace).rdropWhile isSpace ++ post
    rw [List.append_assoc, ← h2, ← h1]
  · intro x hx
    exact head?_dropWhile_false isSpace text.data x
      (head?_rdropWhile_of_some isSpace _ x hx)
  · intro x hx
    exact getLast?_rdropWhile_false isSpace _ x hx

/-- What `strings.Trim(s, "\"")` returns: the text without a run of quotes at each end,
and with no quote left at either end. -/
theorem Trim_quote_spec (s : String) :
    (∃ pre post, s.data = pre ++ (Trim s '"').data ++ post ∧
      (∀ x ∈ pre, x = '"') ∧ ∀ x ∈ post, x = '"') ∧
    (Trim s '"').data.head? ≠ some '"' ∧
    (Trim s '"').data.getLast? ≠ some '"' := by
  obtain ⟨post, h1, hpost⟩ := rdropWhile_decomp (fun x => x == '"') s.data
  obtain ⟨pre, h2, hpre⟩ :=
    dropWhile_decomp (fun x => x == '"') (s.data.rdropWhile (fun x => x == '"'))
  refine ⟨⟨pre, post, ?_, fun x hx => by simpa using hpre x hx,
    fun x hx => by simpa using hpost x hx⟩, ?_, ?_⟩
  · show s.data = pre ++ (s.data.rdropWhile (fun x => x == '"')).dropWhile
      (fun x => x == '"') ++ post
    rw [← h2, ← h1]
  · intro hx
    have := head?_dropWhile_false (fun x => x == '"') _ '"' hx
    simp at this
  · intro hx
    have := getLast?_rdropWhile_false (fun x => x == '"') s.data '"'
      (getLast?_dropWhile_of_some (fun x => x == '"') _ '"' hx)
    simp at this

/-! ## Translation client -/

/-- The result of `translateWithChatGPT` once a 200 response with a first message and a
first content block has been decoded. -/
theorem translateWithChatGPT_of_content (cfg : OpenAIConfig) (env : Env)
    (text body role : String) (c : ChatContent) (cs : List ChatContent)
    (ms : List ChatMessage) (hkey : cfg.APIKey ≠ "")
    (hresp : env.httpPost cfg.APIEndpoint ("Bearer " ++ cfg.APIKey) (buildRequest cfg text) =
      .response 200 body)
    (henv : env.decodeEnvelope body =
      .ok { Output := { Role := role, Content := c :: cs } :: ms }) :
    translateWithChatGPT cfg env text =
      match env.decodePayload (cleanPayload c.Text) with
      | .error e => .error ("error unmarshaling translation payload: " ++ e)
      | .ok payload => .ok payload := by
  unfold translateWithChatGPT
  simp only [hkey, if_false, hresp, henv, index]
  simp

/-- The guard of line 231: a decoded 200 response without any output message yields the
empty-response error. -/
theorem translateWithChatGPT_of_empty_output (cfg : OpenAIConfig) (env : Env)
    (text body : String) (hkey : cfg.APIKey ≠ "")
    (hresp : env.httpPost cfg.APIEndpoint ("Bearer " ++ cfg.APIKey) (buildRequest cfg text) =
      .response 200 body)
    (henv : env.decodeEnvelope body = .ok { Output := [] }) :
    translateWithChatGPT cfg env text = .error "no translation provided in response" := by
  unfold translateWithChatGPT
  simp only [hkey, if_false, hresp, henv]
  simp

/-- No guard covers the content list: a first message without content blocks makes the
index expression of line 235 panic. -/
theorem translateWithChatGPT_of_empty_content (cfg : OpenAIConfig) (env : Env)
    (text body role : String) (ms : List ChatMessage) (hkey : cfg.APIKey ≠ "")
    (hresp : env.httpPost cfg.APIEndpoint ("Bearer " ++ cfg.APIKey) (buildRequest cfg text) =
      .response 200 body)
    (henv : env.decodeEnvelope body = .ok { Output := { Role := role, Content := [] } :: ms }) :
    translateWithChatGPT cfg env text =
      .panic "runtime error: index out of range [0] with length 0" := by
  unfold translateWithChatGPT
  simp only [hkey, if_false, hresp, henv, index]
  simp
  rfl

/-- Claim C4. When the API answers with a status other than 200, `GetTranslationNew`
returns the error that carries the status code and the response body, and the store is
exactly what it was: no translation, no word definition, and the counter untouched. -/
theorem api_failure_leaves_store_unchanged (cfg : OpenAIConfig) (env : Env) (s : Store)
    (text : String) (status : Nat) (body : String) (hkey : cfg.APIKey ≠ "")
    (hresp : env.httpPost cfg.APIEndpoint ("Bearer " ++ cfg.APIKey) (buildRequest cfg text) =
      .response status body)
    (hstatus : status ≠ 200) :
    GetTranslationNew cfg env s text =
      (.error ("API request failed with status code " ++ toString status ++ ": " ++ body),
        s) := by
  have h : translateWithChatGPT cfg env text =
      .error ("API request failed with status code " ++ toString status ++ ": " ++ body) := by
    unfold translateWithChatGPT
    simp only [hkey, if_false, hresp]
    simp [hstatus]
  unfold GetTranslationNew
  rw [h]

theorem api_failure_leaves_store_unchanged_witness :
    (newAppConfig "key").APIKey ≠ "" ∧
    (statusEnv 429 "rate limited").httpPost (newAppConfig "key").APIEndpoint
      ("Bearer " ++ (newAppConfig "key").APIKey) (buildRequest (newAppConfig "key") "Hallo Welt") =
      .response 429 "rate limited" ∧
    429 ≠ 200 ∧
    GetTranslationNew (newAppConfig "key") (statusEnv 429 "rate limited") sampleStore
        "Hallo Welt" =
      (.error ("API request failed with status code " ++ toString 429 ++ ": " ++
        "rate limited"), sampleStore) :=
  ⟨by decide, rfl, by decide,
    api_failure_leaves_store_unchanged (newAppConfig "key") (statusEnv 429 "rate limited")
      sampleStore "Hallo Welt" 429 "rate limited" (by decide) rfl (by decide)⟩

/-- Claim C5, as stated, is refuted. On the reply text `""x""` the text handed to the JSON
decoder is `x`: both layers of quotes are gone, where removing one layer would leave
`"x"`. -/
theorem trim_removes_two_quote_layers :
    translateWithChatGPT (newAppConfig "key") (echoEnv "\"\"x\"\"") "Hallo" =
      .ok { TranslatedText := "x", Words := [] } ∧
    stripOneQuoteLayer (TrimSpace "\"\"x\"\"") = "\"x\"" ∧
    cleanPayload "\"\"x\"\"" ≠ stripOneQuoteLayer (TrimSpace "\"\"x\"\"") := by
  decide

/-- Claim C5, amended. For every text extracted from the model's reply,
`translateWithChatGPT` parses as JSON the text obtained by removing the surrounding
white space and then every quote character at the front and at the back: what is parsed
neither starts nor ends with a quote, however many layers of quotes enclosed it. -/
theorem trim_removes_every_enclosing_quote (cfg : OpenAIConfig) (env : Env)
    (text body role : String) (c : ChatContent) (cs : List ChatContent)
    (ms : List ChatMessage) (hkey : cfg.APIKey ≠ "")
    (hresp : env.httpPost cfg.APIEndpoint ("Bearer " ++ cfg.APIKey) (buildRequest cfg text) =
      .response 200 body)
    (henv : env.decodeEnvelope body =
      .ok { Output := { Role := role, Content := c :: cs } :: ms }) :
    (translateWithChatGPT cfg env text =
      match env.decodePayload (cleanPayload c.Text) with
      | .error e => .error ("error unmarshaling translation payload: " ++ e)
      | .ok payload => .ok payload) ∧
    (∃ pre post, c.Text.data = pre ++ (TrimSpace c.Text).data ++ post ∧
      (∀ x ∈ pre, isSpace x = true) ∧ ∀ x ∈ post, isSpace x = true) ∧
    (∀ x, (TrimSpace c.Text).data.head? = some x → isSpace x = false) ∧
    (∀ x, (TrimSpace c.Text).data.getLast? = some x → isSpace x = false) ∧
    (∃ pre post, (TrimSpace c.Text).data = pre ++ (cleanPayload c.Text).data ++ post ∧
      (∀ x ∈ pre, x = '"') ∧ ∀ x ∈ post, x = '"') ∧
    (cleanPayload c.Text).data.head? ≠ some '"' ∧
    (cleanPayload c.Text).data.getLast? ≠ some '"' := by
  obtain ⟨hs1, hs2, hs3⟩ := TrimSpace_spec c.Text
  obtain ⟨hq1, hq2, hq3⟩ := Trim_quote_spec (TrimSpace c.Text)
  exact ⟨translateWithChatGPT_of_content cfg env text body role c cs ms hkey hresp henv,
    hs1, hs2, hs3, hq1, hq2, hq3⟩

theorem trim_removes_every_enclosing_quote_witness :
    (newAppConfig "key").APIKey ≠ "" ∧
    (echoEnv " \"\"x\"\" ").httpPost (newAppConfig "key").APIEndpoint
        ("Bearer " ++ (newAppConfig "key").APIKey) (buildRequest (newAppConfig "key") "Hallo") =
      .response 200 " \"\"x\"\" " ∧
    (echoEnv " \"\"x\"\" ").decodeEnvelope " \"\"x\"\" " =
      .ok { Output := [{ Role := "assistant", Content := [{ Text := " \"\"x\"\" " }] }] } ∧
    cleanPayload " \"\"x\"\" " = "x" ∧
    ((translateWithChatGPT (newAppConfig "key") (echoEnv " \"\"x\"\" ") "Hallo" =
      match (echoEnv " \"\"x\"\" ").decodePayload
          (cleanPayload (ChatContent.mk " \"\"x\"\" ").Text) with
      | .error e => .error ("error unmarshaling translation payload: " ++ e)
      | .ok payload => .ok payload) ∧
    (∃ pre post, (ChatContent.mk " \"\"x\"\" ").Text.data =
        pre ++ (TrimSpace (ChatContent.mk " \"\"x\"\" ").Text).data ++ post ∧
      (∀ x ∈ pre, isSpace x = true) ∧ ∀ x ∈ post, isSpace x = true) ∧
    (∀ x, (TrimSpace (ChatContent.mk " \"\"x\"\" ").Text).data.head? = some x →
      isSpace x = false) ∧
    (∀ x, (TrimSpace (ChatContent.mk " \"\"x\"\" ").Text).data.getLast? = some x →
      isSpace x = false) ∧
    (∃ pre post, (TrimSpace (ChatContent.mk " \"\"x\"\" ").Text).data =
        pre ++ (cleanPayload (ChatContent.mk " \"\"x\"\" ").Text).data ++ post ∧
      (∀ x ∈ pre, x = '"') ∧ ∀ x ∈ post, x = '"') ∧
    (cleanPayload (ChatContent.mk " \"\"x\"\" ").Text).data.head? ≠ some '"' ∧
    (cleanPayload (ChatContent.mk " \"\"x\"\" ").Text).data.getLast? ≠ some '"') :=
  ⟨by decide, rfl, rfl, by decide,
    trim_removes_every_enclosing_quote (newAppConfig "key") (echoEnv " \"\"x\"\" ") "Hallo"
      " \"\"x\"\" " "assistant" { Text := " \"\"x\"\" " } [] [] (by decide) rfl rfl⟩

/-- Claim C9, failing input. A 200 response whose first message has an empty content
list makes `translateWithChatGPT` panic on `Content[0]`. -/
theorem empty_content_panics :
    translateWithChatGPT (newAppConfig "key") emptyContentEnv "Hallo" =
      .panic "runtime error: index out of range [0] with length 0" := by
  decide

/-! ## Write path -/

theorem queueCreates_fst_of_none (env : Env) (l : List (String × WordDefinition))
    (h : (queueCreates env l).2 = none) : (queueCreates env l).1 = l := by
  induction l with
  | nil => rfl
  | cons p t ih =>
    obtain ⟨a, b⟩ := p
    cases hf : env.bulkCreateFault a with
    | some e => simp [queueCreates, hf] at h
    | none =>
      simp only [queueCreates, hf] at h ⊢
      rw [ih h]

/-- What a successful `GetTranslationNew` has done. -/
theorem GetTranslationNew_ok (cfg : OpenAIConfig) (env : Env) (s s' : Store)
    (text : String) (e : TranslationEntry)
    (h : GetTranslationNew cfg env s text = (.ok e, s')) :
    ∃ translation idx,
      translateWithChatGPT cfg env text = .ok translation ∧
      s.counter = some (.integer idx) ∧
      e = { ID := wrapInt64 (idx + 1), OriginalText := text,
            Translation := translation.TranslatedText, Language := "de",
            CreatedAt := env.now } ∧
      s'.counter = (match env.counterSetFault with
        | some _ => s.counter
        | none => some (.integer (wrapInt64 (idx + 1)))) ∧
      s'.translations = mapSet s.translations (fmtD e.ID) (storedEntry e) ∧
      s'.words = flushCreates env s.words (buildWordsToInsert e.ID translation.Words) := by
  unfold GetTranslationNew at h
  cases htr : translateWithChatGPT cfg env text with
  | error m => simp [htr] at h
  | panic m => simp [htr] at h
  | ok translation =>
    cases hcg : env.counterGetFault with
    | some m => simp [htr, hcg] at h
    | none =>
      cases hc : s.counter with
      | none => simp [htr, hcg, hc] at h
      | some f =>
        cases f with
        | missing => simp [htr, hcg, hc] at h
        | other => simp [htr, hcg, hc] at h
        | integer idx =>
          cases hts : env.translationSetFault with
          | some m => simp [htr, hcg, hc, hts] at h
          | none =>
            simp only [htr, hcg, hc, hts] at h
            cases hq : queueCreates env (buildWordsToInsert (wrapInt64 (idx + 1))
                translation.Words) with
            | mk queued err =>
              have hq1 := queueCreates_fst_of_none env
                (buildWordsToInsert (wrapInt64 (idx + 1)) translation.Words)
              rw [hq] at hq1 h
              cases err with
              | some m => simp at h
              | none =>
                have hq2 := hq1 rfl
                simp only at hq2
                subst hq2
                simp only [Prod.mk.injEq, Result.ok.injEq] at h
                obtain ⟨he, hs⟩ := h
                subst he
                subst hs
                refine ⟨translation, idx, rfl, rfl, rfl, ?_, ?_, ?_⟩
                · cases env.counterSetFault <;> simp [hc]
                · cases env.counterSetFault <;> rfl
                · cases env.counterSetFault <;> rfl

theorem wrapInt64_of_inRange (x : Int) (hlo : minInt64 ≤ x) (hhi : x ≤ maxInt64) :
    wrapInt64 x = x := by
  unfold wrapInt64
  unfold minInt64 at hlo
  unfold maxInt64 at hhi
  norm_num at hlo hhi ⊢
  omega

/-- Claim C1, as stated, is refuted. With the counter at the largest 64-bit value the call
succeeds, and the id it returns is the smallest 64-bit value: neither `stored + 1` nor
greater than `stored`. -/
theorem new_id_wraps_at_maxInt64 :
    GetTranslationNew (newAppConfig "key") (wordsEnv "Hello" [[("Hallo", ["hello"])]] clockA)
        (counterStore 9223372036854775807) "Hallo" =
      (.ok { ID := -9223372036854775808, OriginalText := "Hallo", Translation := "Hello",
             Language := "de", CreatedAt := clockA },
       { counter := some (.integer (-9223372036854775808))
         translations :=
           [("-9223372036854775808",
             { ID := -9223372036854775808, OriginalText := "Hallo", Translation := "Hello",
               Language := "de",
               CreatedAt := { unixNano := 1700000000123456000, zoneOffset := 0 } })]
         words :=
           [("Hallo", { TranslationID := -9223372036854775808, OriginalWord := "Hallo",
                        Meanings := ["hello"] })] }) ∧
    ¬ ((9223372036854775807 : Int) < -9223372036854775808) ∧
    (-9223372036854775808 : Int) ≠ 9223372036854775807 + 1 := by
  decide

/-- Claim C1, amended. When the stored counter value `stored` is a 64-bit integer below
the largest one and `GetTranslationNew` succeeds, the entry it returns has id
`stored + 1`, which is greater than `stored`; that entry and no other is written to the
translations collection, under the decimal string of its id, as the document Firestore
holds for it; and when the store accepted the counter write the counter document holds
the same id. -/
theorem new_id_is_counter_plus_one (cfg : OpenAIConfig) (env : Env) (s s' : Store)
    (text : String) (e : TranslationEntry) (stored : Int)
    (hstored : s.counter = some (.integer stored))
    (hlo : minInt64 ≤ stored) (hhi : stored < maxInt64)
    (hok : GetTranslationNew cfg env s text = (.ok e, s')) :
    e.ID = stored + 1 ∧ stored < e.ID ∧
    s'.translations = mapSet s.translations (fmtD (stored + 1)) (storedEntry e) ∧
    (env.counterSetFault = none → s'.counter = some (.integer e.ID)) := by
  obtain ⟨translation, idx, _, hidx, he, hcnt, htrs, _⟩ :=
    GetTranslationNew_ok cfg env s s' text e hok
  rw [hstored] at hidx
  simp only [Option.some.injEq, IdxField.integer.injEq] at hidx
  subst hidx
  have hw : wrapInt64 (stored + 1) = stored + 1 :=
    wrapInt64_of_inRange (stored + 1) (by omega) (by omega)
  have hid : e.ID = stored + 1 := by rw [he, hw]
  refine ⟨hid, by omega, ?_, ?_⟩
  · rw [htrs, hid]
  · intro hset
    rw [hcnt, hset, hid, hw]

theorem new_id_is_counter_plus_one_witness :
    sampleStore.counter = some (.integer 41) ∧ minInt64 ≤ 41 ∧ (41 : Int) < maxInt64 ∧
    GetTranslationNew (newAppConfig "key")
        (wordsEnv "Hello" [[("Hallo", ["hello"])]] clockA) sampleStore "Hallo" =
      (.ok sampleEntry, sampleStoreAfter) ∧
    (sampleEntry.ID = 41 + 1 ∧ 41 < sampleEntry.ID ∧
      sampleStoreAfter.translations =
        mapSet sampleStore.translations (fmtD (41 + 1)) (storedEntry sampleEntry) ∧
      ((wordsEnv "Hello" [[("Hallo", ["hello"])]] clockA).counterSetFault = none →
        sampleStoreAfter.counter = some (.integer sampleEntry.ID))) :=
  ⟨by decide, by decide, by decide, by decide,
    new_id_is_counter_plus_one (newAppConfig "key")
      (wordsEnv "Hello" [[("Hallo", ["hello"])]] clockA) sampleStore sampleStoreAfter
      "Hallo" sampleEntry 41 (by decide) (by decide) (by decide) (by decide)⟩

/-! ## Round trip -/

/-- The timestamp Firestore holds is the instant rounded down to the microsecond, in
UTC. -/
theorem storedTime_spec (t : Time) :
    (storedTime t).zoneOffset = 0 ∧ (storedTime t).unixNano % 1000 = 0 ∧
    (storedTime t).unixNano ≤ t.unixNano ∧ t.unixNano < (storedTime t).unixNano + 1000 := by
  unfold storedTime
  refine ⟨rfl, ?_, ?_, ?_⟩ <;> simp only <;> omega

/-- Claim C7, as stated, is refuted. The entry returned by a successful
`GetTranslationNew` carries the clock reading `clockA` (nanoseconds, local zone); the
entry `GetTranslation` then reads back carries that instant cut to the microsecond, in
UTC, so its createdAt differs.  And a `GetTranslation` whose `Get` fails returns an
error. -/
theorem read_back_createdAt_differs :
    GetTranslationNew (newAppConfig "key")
        (wordsEnv "Hello" [[("Hallo", ["hello"])]] clockA) sampleStore "Hallo" =
      (.ok sampleEntry, sampleStoreAfter) ∧
    GetTranslation (statusEnv 200 "") sampleStoreAfter sampleEntry.ID =
      .ok sampleEntryStored ∧
    sampleEntryStored.CreatedAt ≠ sampleEntry.CreatedAt ∧
    GetTranslation (readFaultEnv "unavailable") sampleStoreAfter sampleEntry.ID =
      .error "failed to get translation from Firestore: unavailable" := by
  decide

/-- Claim C7, amended. After a successful `GetTranslationNew` returning `e`, the
translations collection holds a document under the decimal string of `e.ID`, and a
following `GetTranslation(e.ID)` looks up that same key: it returns the error of the
`Get` when that call fails, and otherwise an entry whose id, originalText, translation
and language equal those of `e` and whose createdAt is the instant of `e.CreatedAt`
rounded down to the microsecond, in UTC. -/
theorem saved_entry_is_read_back_to_the_microsecond (cfg : OpenAIConfig) (env env' : Env)
    (s s' : Store) (text : String) (e : TranslationEntry)
    (hok : GetTranslationNew cfg env s text = (.ok e, s')) :
    ∃ r, mapGet s'.translations (fmtD e.ID) = some r ∧
      GetTranslation env' s' e.ID =
        (match env'.translationGetFault with
         | some m => .error ("failed to get translation from Firestore: " ++ m)
         | none => .ok r) ∧
      r.ID = e.ID ∧ r.OriginalText = e.OriginalText ∧ r.Translation = e.Translation ∧
      r.Language = e.Language ∧
      r.CreatedAt.zoneOffset = 0 ∧ r.CreatedAt.unixNano % 1000 = 0 ∧
      r.CreatedAt.unixNano ≤ e.CreatedAt.unixNano ∧
      e.CreatedAt.unixNano < r.CreatedAt.unixNano + 1000 := by
  obtain ⟨translation, idx, _, _, _, _, htrs, _⟩ :=
    GetTranslationNew_ok cfg env s s' text e hok
  have hg : mapGet s'.translations (fmtD e.ID) = some (storedEntry e) := by
    rw [htrs, mapGet_mapSet]
    simp
  obtain ⟨hz, hm, hle, hlt⟩ := storedTime_spec e.CreatedAt
  refine ⟨storedEntry e, hg, ?_, rfl, rfl, rfl, rfl, hz, hm, hle, hlt⟩
  unfold GetTranslation fsGetTranslation
  cases env'.translationGetFault with
  | some m => rfl
  | none => simp only [hg]

theorem saved_entry_is_read_back_to_the_microsecond_witness :
    GetTranslationNew (newAppConfig "key")
        (wordsEnv "Hello" [[("Hallo", ["hello"])]] clockA) sampleStore "Hallo" =
      (.ok sampleEntry, sampleStoreAfter) ∧
    GetTranslation (statusEnv 200 "") sampleStoreAfter sampleEntry.ID =
      .ok sampleEntryStored ∧
    (∃ r, mapGet sampleStoreAfter.translations (fmtD sampleEntry.ID) = some r ∧
      GetTranslation (statusEnv 200 "") sampleStoreAfter sampleEntry.ID =
        (match (statusEnv 200 "").translationGetFault with
         | some m => .error ("failed to get translation from Firestore: " ++ m)
         | none => .ok r) ∧
      r.ID = sampleEntry.ID ∧ r.OriginalText = sampleEntry.OriginalText ∧
      r.Translation = sampleEntry.Translation ∧ r.Language = sampleEntry.Language ∧
      r.CreatedAt.zoneOffset = 0 ∧ r.CreatedAt.unixNano % 1000 = 0 ∧
      r.CreatedAt.unixNano ≤ sampleEntry.CreatedAt.unixNano ∧
      sampleEntry.CreatedAt.unixNano < r.CreatedAt.unixNano + 1000) :=
  ⟨by decide, by decide,
    saved_entry_is_read_back_to_the_microsecond (newAppConfig "key")
      (wordsEnv "Hello" [[("Hallo", ["hello"])]] clockA) (statusEnv 200 "") sampleStore
      sampleStoreAfter "Hallo" sampleEntry (by decide)⟩

/-! ## Delete -/

/-- Claim C6, as stated, is refuted. Deleting id 7 from a store that has no translation 7
succeeds and leaves the store as it was. -/
theorem deleting_absent_translation_succeeds :
    mapGet sampleStore.translations (fmtD 7) = none ∧
    DeleteTranslation (statusEnv 200 "") sampleStore 7 = (.ok (), sampleStore) := by
  decide

/-- Claim C6, amended. For an id that has no entry in the translations collection,
`DeleteTranslation(id)` returns an error exactly when the delete call fails on its way
to the store; when the call reaches the store it returns no error and the store is
unchanged. -/
theorem delete_of_missing_id (env : Env) (s : Store) (id : Int)
    (hmiss : mapGet s.translations (fmtD id) = none) :
    DeleteTranslation env s id =
      match env.translationDeleteFault with
      | some m => (.error ("failed to delete translation from Firestore: " ++ m), s)
      | none => (.ok (), s) := by
  unfold DeleteTranslation
  cases env.translationDeleteFault with
  | some m => rfl
  | none => simp only [mapErase_of_not_mem s.translations (fmtD id) hmiss]

theorem delete_of_missing_id_witness :
    mapGet sampleStore.translations (fmtD 7) = none ∧
    DeleteTranslation (statusEnv 200 "") sampleStore 7 =
      match (statusEnv 200 "").translationDeleteFault with
      | some m => (.error ("failed to delete translation from Firestore: " ++ m), sampleStore)
      | none => (.ok (), sampleStore) :=
  ⟨by decide, delete_of_missing_id (statusEnv 200 "") sampleStore 7 (by decide)⟩

/-! ## Word definitions across calls -/

theorem mapGet_fsCreate (fault : Option String) (ws : List (String × WordDefinition))
    (k w : String) (v : WordDefinition) :
    mapGet (fsCreate fault ws k v) w =
      match mapGet ws w with
      | some d => some d
      | none => if k = w ∧ validDocID k = true ∧ fault = none then some v else none := by
  unfold fsCreate
  cases hv : validDocID k with
  | false => cases hw : mapGet ws w <;> simp [hw]
  | true =>
    cases fault with
    | some m => cases hw : mapGet ws w <;> simp [hw]
    | none =>
      simp only [Bool.true_eq_false, if_false, and_true, true_and]
      cases hk : mapGet ws k with
      | some d0 =>
        cases hw : mapGet ws w with
        | some d => rfl
        | none =>
          have hne : ¬ k = w := fun e => by
            rw [e, hw] at hk
            cases hk
          simp [hw, hne]
      | none =>
        simp only [mapGet_mapSet]
        by_cases hkw : k = w
        · subst hkw
          simp [hk]
        · cases hw : mapGet ws w <;> simp [hkw]

/-- A flushed batch only adds documents: a key already in the collection keeps its
document, and a new key gets the first create queued for it, provided the id is allowed
and the write does not fail. -/
theorem mapGet_flushCreates (env : Env) (ws q : List (String × WordDefinition))
    (w : String) :
    mapGet (flushCreates env ws q) w =
      match mapGet ws w with
      | some d => some d
      | none =>
        if validDocID w = true ∧ env.bulkWriteFault w = none then mapGet q w else none := by
  induction q generalizing ws with
  | nil =>
    cases h : mapGet ws w <;> simp [flushCreates, mapGet, h]
  | cons p t ih =>
    obtain ⟨k, v⟩ := p
    have hstep : flushCreates env ws ((k, v) :: t) =
        flushCreates env (fsCreate (env.bulkWriteFault k) ws k v) t := rfl
    rw [hstep, ih, mapGet_fsCreate]
    cases hw : mapGet ws w with
    | some d => rfl
    | none =>
      by_cases hkw : k = w
      · subst hkw
        by_cases hc : validDocID k = true ∧ env.bulkWriteFault k = none
        · simp [mapGet, hc]
        · simp [mapGet, hc]
      · simp [mapGet, hkw]

theorem mem_mapKeys_innerLoop (id : Int) (m : List (String × List String))
    (acc : List (String × WordDefinition)) (w : String) :
    w ∈ mapKeys (m.foldl (fun acc p =>
        mapSet acc p.1 { TranslationID := id, OriginalWord := p.1, Meanings := p.2 }) acc) ↔
      w ∈ mapKeys acc ∨ w ∈ mapKeys m := by
  induction m generalizing acc with
  | nil => simp [mapKeys]
  | cons p t ih =>
    rw [List.foldl_cons, ih, mem_mapKeys_mapSet]
    simp only [mapKeys, List.map_cons, List.mem_cons]
    tauto

theorem mem_mapKeys_outerLoop (id : Int) (words : List (List (String × List String)))
    (acc : List (String × WordDefinition)) (w : String) :
    w ∈ mapKeys (words.foldl (fun acc wordEntry =>
        wordEntry.foldl (fun acc p =>
          mapSet acc p.1 { TranslationID := id, OriginalWord := p.1, Meanings := p.2 })
        acc) acc) ↔
      w ∈ mapKeys acc ∨ ∃ m ∈ words, w ∈ mapKeys m := by
  induction words generalizing acc with
  | nil => simp
  | cons m rest ih =>
    rw [List.foldl_cons, ih, mem_mapKeys_innerLoop]
    simp only [List.mem_cons, exists_eq_or_imp]
    tauto

theorem mem_mapKeys_buildWordsToInsert (id : Int)
    (words : List (List (String × List String))) (w : String) :
    w ∈ mapKeys (buildWordsToInsert id words) ↔ ∃ m ∈ words, w ∈ mapKeys m := by
  unfold buildWordsToInsert
  rw [mem_mapKeys_outerLoop]
  simp [mapKeys]

/-- The record a batch holds for a word that occurs in the word maps: the id, the word,
and the meanings of the last list element that contains the word. -/
theorem record_of_word (id : Int) (words : List (List (String × List String)))
    (hwf : ∀ m ∈ words, (mapKeys m).Nodup) (w : String)
    (hw : ∃ m ∈ words, w ∈ mapKeys m) :
    ∃ ms, (∃ pre m post, words = pre ++ m :: post ∧ (w, ms) ∈ m ∧
        ∀ m' ∈ post, w ∉ mapKeys m') ∧
      mapGet (buildWordsToInsert id words) w =
        some { TranslationID := id, OriginalWord := w, Meanings := ms } := by
  cases hl : lastOccurrence words w with
  | none =>
    obtain ⟨m, hm, hmem⟩ := hw
    exact absurd hmem
      ((mapGet_eq_none_iff m w).mp ((lastOccurrence_eq_none_iff words w).mp hl m hm))
  | some ms =>
    obtain ⟨pre, m, post, hwords, hgm, hp⟩ := lastOccurrence_eq_some words w ms hl
    refine ⟨ms, ⟨pre, m, post, hwords, mem_of_mapGet m w ms hgm,
      fun m' hm' => (mapGet_eq_none_iff m' w).mp (hp m' hm')⟩, ?_⟩
    rw [mapGet_buildWordsToInsert id words hwf w, hl]
    rfl

/-- The document stored under a word of the word list after one successful call. -/
theorem word_after_call (cfg : OpenAIConfig) (env : Env) (s s' : Store) (text : String)
    (e : TranslationEntry) (t : OpenAITranslation) (w : String)
    (hok : GetTranslationNew cfg env s text = (.ok e, s'))
    (ht : translateWithChatGPT cfg env text = .ok t)
    (hwf : ∀ m ∈ t.Words, (mapKeys m).Nodup)
    (hw : ∃ m ∈ t.Words, w ∈ mapKeys m) :
    ∃ ms, (∃ pre m post, t.Words = pre ++ m :: post ∧ (w, ms) ∈ m ∧
        ∀ m' ∈ post, w ∉ mapKeys m') ∧
      mapGet s'.words w =
        match mapGet s.words w with
        | some d => some d
        | none =>
          if validDocID w = true ∧ env.bulkWriteFault w = none then
            some { TranslationID := e.ID, OriginalWord := w, Meanings := ms }
          else none := by
  obtain ⟨t', _, ht', _, _, _, _, hws⟩ := GetTranslationNew_ok cfg env s s' text e hok
  rw [ht] at ht'
  cases ht'
  obtain ⟨ms, hdec, hrec⟩ := record_of_word e.ID t.Words hwf w hw
  refine ⟨ms, hdec, ?_⟩
  rw [hws, mapGet_flushCreates, hrec]

/-- Claim C3, as stated, is refuted. Two successful calls in a row whose word lists both
contain `Hallo`: after the second call the document stored under `Hallo` is still the
one written by the first call (translation id 1), not the second call's (translation
id 2, meanings `hallo there`). -/
theorem second_call_does_not_replace_word :
    GetTranslationNew (newAppConfig "key") (wordsEnv "Hello" firstWords clockA)
        (counterStore 0) "Hallo" = (.ok firstEntry, afterFirstCall) ∧
    GetTranslationNew (newAppConfig "key") (wordsEnv "Hello world" secondWords clockB)
        afterFirstCall "Hallo Welt" = (.ok secondEntry, afterSecondCall) ∧
    (∃ m ∈ firstWords, "Hallo" ∈ mapKeys m) ∧ (∃ m ∈ secondWords, "Hallo" ∈ mapKeys m) ∧
    mapGet afterSecondCall.words "Hallo" =
      some { TranslationID := 1, OriginalWord := "Hallo",
             Meanings := ["hello", "hi", "hey"] } ∧
    mapGet afterSecondCall.words "Hallo" ≠
      some { TranslationID := 2, OriginalWord := "Hallo", Meanings := ["hallo there"] } := by
  decide

/-- Claim C3, amended. For every two successful `GetTranslationNew` calls made one after
the other whose word lists both contain the same word `w`: a WordDefinition stored under
key `w` after the first call is still the one stored there after the second call (the
batch only creates documents, so the first writer for a word wins); the second call's
WordDefinition for `w` (its translationId and the meanings of the last occurrence of `w`
in its word list) is stored only when nothing is stored under `w` after the first call
and Firestore accepts the create, and nothing is stored otherwise.  The same holds of
the first call with respect to the store before it. -/
theorem first_writer_of_a_word_wins (cfg : OpenAIConfig) (env1 env2 : Env)
    (s0 s1 s2 : Store) (text1 text2 : String) (e1 e2 : TranslationEntry)
    (t1 t2 : OpenAITranslation) (w : String)
    (h1 : GetTranslationNew cfg env1 s0 text1 = (.ok e1, s1))
    (h2 : GetTranslationNew cfg env2 s1 text2 = (.ok e2, s2))
    (ht1 : translateWithChatGPT cfg env1 text1 = .ok t1)
    (ht2 : translateWithChatGPT cfg env2 text2 = .ok t2)
    (hwf1 : ∀ m ∈ t1.Words, (mapKeys m).Nodup)
    (hwf2 : ∀ m ∈ t2.Words, (mapKeys m).Nodup)
    (hw1 : ∃ m ∈ t1.Words, w ∈ mapKeys m)
    (hw2 : ∃ m ∈ t2.Words, w ∈ mapKeys m) :
    ∃ ms1 ms2,
      (∃ pre m post, t1.Words = pre ++ m :: post ∧ (w, ms1) ∈ m ∧
        ∀ m' ∈ post, w ∉ mapKeys m') ∧
      (∃ pre m post, t2.Words = pre ++ m :: post ∧ (w, ms2) ∈ m ∧
        ∀ m' ∈ post, w ∉ mapKeys m') ∧
      (mapGet s1.words w =
        match mapGet s0.words w with
        | some d => some d
        | none =>
          if validDocID w = true ∧ env1.bulkWriteFault w = none then
            some { TranslationID := e1.ID, OriginalWord := w, Meanings := ms1 }
          else none) ∧
      (mapGet s2.words w =
        match mapGet s1.words w with
        | some d => some d
        | none =>
          if validDocID w = true ∧ env2.bulkWriteFault w = none then
            some { TranslationID := e2.ID, OriginalWord := w, Meanings := ms2 }
          else none) := by
  obtain ⟨ms1, hdec1, hget1⟩ := word_after_call cfg env1 s0 s1 text1 e1 t1 w h1 ht1 hwf1 hw1
  obtain ⟨ms2, hdec2, hget2⟩ := word_after_call cfg env2 s1 s2 text2 e2 t2 w h2 ht2 hwf2 hw2
  exact ⟨ms1, ms2, hdec1, hdec2, hget1, hget2⟩

theorem first_writer_of_a_word_wins_witness :
    GetTranslationNew (newAppConfig "key") (wordsEnv "Hello" firstWords clockA)
        (counterStore 0) "Hallo" = (.ok firstEntry, afterFirstCall) ∧
    GetTranslationNew (newAppConfig "key") (wordsEnv "Hello world" secondWords clockB)
        afterFirstCall "Hallo Welt" = (.ok secondEntry, afterSecondCall) ∧
    translateWithChatGPT (newAppConfig "key") (wordsEnv "Hello" firstWords clockA) "Hallo" =
      .ok { TranslatedText := "Hello", Words := firstWords } ∧
    translateWithChatGPT (newAppConfig "key") (wordsEnv "Hello world" secondWords clockB)
        "Hallo Welt" = .ok { TranslatedText := "Hello world", Words := secondWords } ∧
    (∀ m ∈ firstWords, (mapKeys m).Nodup) ∧ (∀ m ∈ secondWords, (mapKeys m).Nodup) ∧
    (∃ m ∈ firstWords, "Hallo" ∈ mapKeys m) ∧ (∃ m ∈ secondWords, "Hallo" ∈ mapKeys m) ∧
    (∃ ms1 ms2,
      (∃ pre m post, firstWords = pre ++ m :: post ∧ ("Hallo", ms1) ∈ m ∧
        ∀ m' ∈ post, "Hallo" ∉ mapKeys m') ∧
      (∃ pre m post, secondWords = pre ++ m :: post ∧ ("Hallo", ms2) ∈ m ∧
        ∀ m' ∈ post, "Hallo" ∉ mapKeys m') ∧
      (mapGet afterFirstCall.words "Hallo" =
        match mapGet (counterStore 0).words "Hallo" with
        | some d => some d
        | none =>
          if validDocID "Hallo" = true ∧
              (wordsEnv "Hello" firstWords clockA).bulkWriteFault "Hallo" = none then
            some { TranslationID := firstEntry.ID, OriginalWord := "Hallo", Meanings := ms1 }
          else none) ∧
      (mapGet afterSecondCall.words "Hallo" =
        match mapGet afterFirstCall.words "Hallo" with
        | some d => some d
        | none =>
          if validDocID "Hallo" = true ∧
              (wordsEnv "Hello world" secondWords clockB).bulkWriteFault "Hallo" = none then
            some { TranslationID := secondEntry.ID, OriginalWord := "Hallo",
                   Meanings := ms2 }
          else none)) :=
  ⟨by decide, by decide, by decide, by decide, by decide, by decide, by decide, by decide,
    first_writer_of_a_word_wins (newAppConfig "key") (wordsEnv "Hello" firstWords clockA)
      (wordsEnv "Hello world" secondWords clockB) (counterStore 0) afterFirstCall
      afterSecondCall "Hallo" "Hallo Welt" firstEntry secondEntry
      { TranslatedText := "Hello", Words := firstWords }
      { TranslatedText := "Hello world", Words := secondWords } "Hallo"
      (by decide) (by decide) (by decide) (by decide) (by decide) (by decide) (by decide)
      (by decide)⟩

/-- A call whose word list holds a word Firestore does not allow as a document id
succeeds and stores nothing under it. -/
theorem rejected_word_is_not_stored :
    GetTranslationNew (newAppConfig "key")
        (wordsEnv "and/or" [[("und/oder", ["and/or"])]] clockA) (counterStore 0)
        "und/oder" =
      (.ok { ID := 1, OriginalText := "und/oder", Translation := "and/or", Language := "de",
             CreatedAt := clockA },
       { counter := some (.integer 1)
         translations :=
           [("1", { ID := 1, OriginalText := "und/oder", Translation := "and/or",
                    Language := "de",
                    CreatedAt := { unixNano := 1700000000123456000, zoneOffset := 0 } })]
         words := [] }) := by
  decide

/-! ## HTTP handlers -/

theorem delete_handler_rejects_malformed_id (env : Env) (s : Store) (id : String)
    (e : NumError) (h : (Atoi id).2 = some e) :
    deleteTranslationHandler env s id = ({ status := 400, body := .error "Invalid ID" }, s) := by
  unfold deleteTranslationHandler
  cases ha : Atoi id with
  | mk v err =>
    rw [ha] at h
    simp only at h
    subst h
    rfl

/-- Claim C8, failing input. For the path parameter `abc`, which `strconv.Atoi` rejects,
the GET handler looks up id 0: it answers 500 when the store has no translation 0 and
200 with that translation when it has one.  The DELETE handler answers 400 and leaves
the store alone. -/
theorem get_handler_looks_up_zero_on_malformed_id :
    Atoi "abc" = (0, some .invalid) ∧
    getTranslationHandler (statusEnv 200 "") sampleStore "abc" =
      { status := 500
        body := .error ("failed to get translation from Firestore: " ++
          notFoundMsg "translations/0") } ∧
    getTranslationHandler (statusEnv 200 "") zeroStore "abc" =
      { status := 200
        body := .entry zeroEntry } ∧
    deleteTranslationHandler (statusEnv 200 "") zeroStore "abc" =
      ({ status := 400, body := .error "Invalid ID" }, zeroStore) := by
  decide

/-! ## Static files -/

/-- Claim C10, failing input. On the path `/abc` the comparison with `.html` slices at
index `-1` and `getContentType` panics; no content type is returned. -/
theorem getContentType_panics_on_short_path :
    getContentType "/abc" = .panic "runtime error: slice bounds out of range [-1:]" := by
  decide

/-- On a path of at least six bytes every slice is in bounds and a content type is
returned. -/
theorem getContentType_total_of_six_bytes (path : String)
    (h : 6 ≤ (goBytes path).length) : ∃ t, getContentType path = .ok t := by
  have h3 : ¬ (goBytes path).length < 3 := by omega
  have h4 : ¬ (goBytes path).length < 4 := by omega
  have h5 : ¬ (goBytes path).length < 5 := by omega
  have h6 : ¬ (goBytes path).length < 6 := by omega
  unfold getContentType
  simp only [caseSuffix, suffixFrom, h3, h4, h5, h6, if_false]
  repeat' split
  all_goals exact ⟨_, rfl⟩


end Backend
